import Mathlib

/-!
Shallow embedding of the scene-graph / reconciliation core of the tiling
window manager in `packages/wm`, together with proofs about the dynamic
insertion planner (`manage_window.rs`), the reconciliation pass
(`platform_sync.rs`), the drag controller (`handle_mouse_move.rs`) and
event emission (`wm_state.rs`).

Machine integers (`i32`, `u64`, `isize`) are modelled as `Int`/`Nat`; the
screen coordinates involved are far below any overflow boundary.  The
`f32` comparison `(|dx| / w) > (|dy| / h)` in the planner is embedded as
the exact cross-multiplied integer comparison `|dx| * h > |dy| * w`
(equivalent for positive `w`, `h`; integer screen coordinates are exact
in `f32`).
-/

namespace Wm

/-- Geometry: a point, as in `wm_common::Point` (fields `x`, `y` of `i32`). -/
structure Point where
  x : Int
  y : Int
deriving DecidableEq, Repr

/-- Geometry: a rectangle, as in `wm_common::Rect` (`from_ltrb` fields).
Modelled from the spec: the rect type itself is not under `src/`; per
§4.A rectangles expose left/top/right/bottom with inclusive-left
exclusive-right semantics. -/
structure Rect where
  left : Int
  top : Int
  right : Int
  bottom : Int
deriving DecidableEq, Repr

/-- Modelled from the spec: `Rect::width()` (not under `src/`). -/
def Rect.width (r : Rect) : Int := r.right - r.left

/-- Modelled from the spec: `Rect::height()` (not under `src/`). -/
def Rect.height (r : Rect) : Int := r.bottom - r.top

/-- Modelled from the spec: `Rect::x()` is the left edge (not under `src/`). -/
def Rect.x (r : Rect) : Int := r.left

/-- Modelled from the spec: `Rect::y()` is the top edge (not under `src/`). -/
def Rect.y (r : Rect) : Int := r.top

/-- Modelled from the spec: `Rect::contains_point` with inclusive-left
exclusive-right semantics (§4.A; not under `src/`). -/
def Rect.contains_point (r : Rect) (p : Point) : Bool :=
  r.left ≤ p.x && p.x < r.right && r.top ≤ p.y && p.y < r.bottom

/-- Modelled from the spec: `Rect::center_point` (not under `src/`),
the midpoint of the rect with integer division. -/
def Rect.center_point (r : Rect) : Point :=
  ⟨r.left + r.width / 2, r.top + r.height / 2⟩

/-- Tiling direction (`wm_common::TilingDirection`). -/
inductive TilingDirection
  | horizontal
  | vertical
deriving DecidableEq, Repr

/-- Window state (`wm_common::WindowState`): `Tiling`,
`Floating { centered, shown_on_top }`, `Fullscreen { maximized, shown_on_top }`,
`Minimized`. -/
inductive WindowState
  | tiling
  | floating (centered : Bool) (shown_on_top : Bool)
  | fullscreen (maximized : Bool) (shown_on_top : Bool)
  | minimized
deriving DecidableEq, Repr

/-- `WindowState::is_same_state`: equality of the variant tags. -/
def WindowState.is_same_state : WindowState → WindowState → Bool
  | .tiling, .tiling => true
  | .floating _ _, .floating _ _ => true
  | .fullscreen _ _, .fullscreen _ _ => true
  | .minimized, .minimized => true
  | _, _ => false

/- ===================================================================
   Dynamic insertion planner: `insertion_target` in
   `packages/wm/src/commands/window/manage_window.rs` (lines 208-305).
   =================================================================== -/

/-- The data of a focused tiling container (a `TilingWindow` or a `Split`)
that `insertion_target` reads: its projected rect, its parent's tiling
direction and child count, and its own index among the parent's children. -/
structure FocusedTiling where
  rect : Rect
  parent_dir : TilingDirection
  parent_child_count : Nat
  index : Nat
deriving DecidableEq, Repr

/-- The focused container as seen by `insertion_target`: a tiling window,
a split (both succeed in `as_tiling_container`), or any other container. -/
inductive FocusedContainer
  | tiling_window (t : FocusedTiling)
  | split (t : FocusedTiling)
  | non_tiling
deriving DecidableEq, Repr

/-- `Container::as_tiling_container`: succeeds for tiling windows and splits. -/
def FocusedContainer.as_tiling_container : FocusedContainer → Option FocusedTiling
  | .tiling_window t => some t
  | .split t => some t
  | .non_tiling => none

/-- Inputs of `insertion_target`: the state of the new window, the focused
container, the mouse position (`Platform::mouse_position()` may fail, hence
`Option`), the first tiling window in the focused workspace's descendant
focus order (for the fallback path), and the focused workspace's child count. -/
structure PlannerInput where
  window_state : WindowState
  focused : FocusedContainer
  mouse_position : Option Point
  sibling_in_focus_order : Option FocusedTiling
  workspace_child_count : Nat
deriving DecidableEq, Repr

/-- The decision returned by `insertion_target`, naming which parent and
index the new window is attached at (and which tree mutation, if any,
the planner performed on the way). -/
inductive InsertionDecision
  | into_parent (index : Nat)
  | set_direction (dir : TilingDirection) (index : Nat)
  | wrap_in_split (dir : TilingDirection) (index : Nat)
  | after_sibling (index : Nat)
  | append_to_workspace (index : Nat)
deriving DecidableEq, Repr

/-- The desired split direction from the cursor quadrant
(`manage_window.rs` lines 226-238): Horizontal when the normalized
horizontal offset strictly exceeds the normalized vertical offset,
else Vertical.  `(|dx| / w) > (|dy| / h)` is embedded as
`|dx| * h > |dy| * w` (equivalent for `w, h > 0`, which holds whenever
the rect contains the cursor). -/
def desired_direction (r : Rect) (mouse : Point) : TilingDirection :=
  let c := r.center_point
  let dx := mouse.x - c.x
  let dy := mouse.y - c.y
  if (dx.natAbs : Int) * r.height > (dy.natAbs : Int) * r.width then
    TilingDirection.horizontal
  else
    TilingDirection.vertical

/-- Whether the new window is inserted after the focused one
(`manage_window.rs` lines 240-244): `delta_x > 0` for a horizontal
desired direction, `delta_y > 0` for a vertical one. -/
def insert_after (r : Rect) (mouse : Point) : Bool :=
  let c := r.center_point
  match desired_direction r mouse with
  | .horizontal => mouse.x - c.x > 0
  | .vertical => mouse.y - c.y > 0

/-- Fallback of `insertion_target` (`manage_window.rs` lines 285-304):
the focused container itself when it is a tiling window, else the first
tiling window in the workspace's descendant focus order; the new window
goes next to that sibling, or is appended to the workspace. -/
def insertion_fallback (inp : PlannerInput) : InsertionDecision :=
  let sibling :=
    match inp.focused with
    | .tiling_window t => some t
    | _ => inp.sibling_in_focus_order
  match sibling with
  | some s => .after_sibling (s.index + 1)
  | none => .append_to_workspace inp.workspace_child_count

/-- `insertion_target` (`manage_window.rs` lines 208-305).  For a tiling
window, when the focused container is a tiling container whose rect
contains the cursor: same parent direction inserts next to the focused
container; a single-child parent has its direction changed; otherwise the
focused container is wrapped in a new split.  Otherwise the fallback. -/
def insertion_target (inp : PlannerInput) : InsertionDecision :=
  if inp.window_state = WindowState.tiling then
    match inp.focused.as_tiling_container, inp.mouse_position with
    | some t, some mouse =>
      if t.rect.contains_point mouse then
        let dir := desired_direction t.rect mouse
        let ins := insert_after t.rect mouse
        if t.parent_dir = dir then
          .into_parent (if ins then t.index + 1 else t.index)
        else if t.parent_child_count = 1 then
          .set_direction dir (if ins then 1 else 0)
        else
          .wrap_in_split dir (if ins then 1 else 0)
      else
        insertion_fallback inp
    | _, _ => insertion_fallback inp
  else
    .append_to_workspace inp.workspace_child_count

end Wm

namespace Wm

/-- C1 witness input: a 1920x1080 window rect, cursor in its right half. -/
def plannerInputS1 : PlannerInput :=
  { window_state := .tiling
    focused := .tiling_window
      { rect := ⟨0, 0, 1920, 1080⟩
        parent_dir := .horizontal
        parent_child_count := 1
        index := 0 }
    mouse_position := some ⟨1400, 540⟩
    sibling_in_focus_order := none
    workspace_child_count := 1 }

end Wm

/-- C1: for a new tiling window, when the focused container is a tiling
window whose projected rect contains the cursor and whose parent's tiling
direction equals the desired direction derived from the cursor offset,
the planner returns that parent with index `focused_index + 1` when
`insert_after` holds (`dx > 0` horizontally, `dy > 0` vertically) and
`focused_index` otherwise. -/
theorem insertion_same_direction (inp : Wm.PlannerInput) (t : Wm.FocusedTiling)
    (p : Wm.Point)
    (hstate : inp.window_state = Wm.WindowState.tiling)
    (hfoc : inp.focused = Wm.FocusedContainer.tiling_window t)
    (hmouse : inp.mouse_position = some p)
    (hcontains : t.rect.contains_point p = true)
    (hdir : t.parent_dir = Wm.desired_direction t.rect p) :
    Wm.insertion_target inp =
      Wm.InsertionDecision.into_parent
        (if Wm.insert_after t.rect p then t.index + 1 else t.index) := by
  simp [Wm.insertion_target, hstate, hfoc, hmouse,
    Wm.FocusedContainer.as_tiling_container, hcontains, hdir]

/-- C1 witness: cursor in the right half of the focused window with a
horizontal parent yields insertion at index 1 of the same parent. -/
theorem insertion_same_direction_witness :
    Wm.insertion_target Wm.plannerInputS1 = Wm.InsertionDecision.into_parent 1 := by
  have h := insertion_same_direction Wm.plannerInputS1
    { rect := ⟨0, 0, 1920, 1080⟩
      parent_dir := .horizontal
      parent_child_count := 1
      index := 0 }
    ⟨1400, 540⟩ rfl rfl rfl (by decide) (by decide)
  simpa using h

namespace Wm

/-- C3 counterexample input: focused tiling window with rect
`(0,0,100,100)` inside a vertical parent of three children, focused at
index 2, with the cursor exactly on the rect's center `(50,50)`. -/
def plannerInputCenter : PlannerInput :=
  { window_state := .tiling
    focused := .tiling_window
      { rect := ⟨0, 0, 100, 100⟩
        parent_dir := .vertical
        parent_child_count := 3
        index := 2 }
    mouse_position := some ⟨50, 50⟩
    sibling_in_focus_order := none
    workspace_child_count := 3 }

end Wm

/-- C3 counterexample: with rect `(0,0,200,100)` and cursor `(150,75)` the
normalized offsets are equal in magnitude (`|50|/200 = |25|/100`), yet the
desired direction is Vertical, not Horizontal; and with the cursor exactly
on the center of the focused window the planner inserts the new window
before the focused one (at index 2, its focused index), not after it. -/
theorem insertion_tie_counterexample :
    Wm.desired_direction ⟨0, 0, 200, 100⟩ ⟨150, 75⟩ = Wm.TilingDirection.vertical ∧
    Wm.insert_after ⟨0, 0, 100, 100⟩ ⟨50, 50⟩ = false ∧
    Wm.insertion_target Wm.plannerInputCenter = Wm.InsertionDecision.into_parent 2 := by
  refine ⟨by decide, by decide, by decide⟩

/-- C3 amended: whenever the normalized cursor offsets are equal in
magnitude (`|dx| * height = |dy| * width`) the desired direction is
Vertical, and when the cursor is exactly on the focused window's center
the new window is inserted before the focused window (at the focused
index) whenever the parent's direction matches the desired (Vertical)
direction. -/
theorem insertion_tie_amended :
    (∀ (r : Wm.Rect) (p : Wm.Point),
      ((p.x - r.center_point.x).natAbs : Int) * r.height =
        ((p.y - r.center_point.y).natAbs : Int) * r.width →
      Wm.desired_direction r p = Wm.TilingDirection.vertical) ∧
    (∀ (inp : Wm.PlannerInput) (t : Wm.FocusedTiling),
      inp.window_state = Wm.WindowState.tiling →
      inp.focused = Wm.FocusedContainer.tiling_window t →
      inp.mouse_position = some t.rect.center_point →
      t.rect.contains_point t.rect.center_point = true →
      t.parent_dir = Wm.TilingDirection.vertical →
      Wm.insertion_target inp = Wm.InsertionDecision.into_parent t.index) := by
  constructor
  · intro r p h
    simp only [Wm.desired_direction, h, lt_irrefl, if_false]
  · intro inp t hstate hfoc hmouse hcontains hdir
    have hdirc : Wm.desired_direction t.rect t.rect.center_point =
        Wm.TilingDirection.vertical := by
      simp [Wm.desired_direction]
    have hins : Wm.insert_after t.rect t.rect.center_point = false := by
      simp [Wm.insert_after, hdirc]
    simp [Wm.insertion_target, hstate, hfoc, hmouse,
      Wm.FocusedContainer.as_tiling_container, hcontains, hdir, hdirc, hins]

/-- C3 amended witness: all hypotheses hold at the concrete center-cursor
input, and the planner inserts at the focused index. -/
theorem insertion_tie_amended_witness :
    Wm.insertion_target Wm.plannerInputCenter = Wm.InsertionDecision.into_parent 2 := by
  have h := insertion_tie_amended.2 Wm.plannerInputCenter
    { rect := ⟨0, 0, 100, 100⟩
      parent_dir := .vertical
      parent_child_count := 3
      index := 2 }
    rfl rfl (by decide) (by decide) rfl
  simpa using h

namespace Wm

/- ===================================================================
   Animation task: `redraw_containers` in
   `packages/wm/src/commands/general/platform_sync.rs` (lines 245-319)
   and `AnimationConfig` in `packages/wm-common/src/parsed_config.rs`
   (lines 86-103).
   =================================================================== -/

/-- `AnimationConfig` (`parsed_config.rs` lines 89-93). -/
structure AnimationConfig where
  enabled : Bool
  duration_ms : Nat
  fps : Nat
deriving DecidableEq, Repr

/-- The `Default` impl of `AnimationConfig` (`parsed_config.rs` lines
95-103): enabled, 150 ms, 144 fps. -/
def AnimationConfig.default : AnimationConfig :=
  { enabled := true, duration_ms := 150, fps := 144 }

/-- `interval_ms = 1000 / fps` (`platform_sync.rs` line 278), integer
division on `u64`. -/
def AnimationConfig.interval_ms (cfg : AnimationConfig) : Nat :=
  1000 / cfg.fps

/-- `steps = (duration_ms as f64 / interval_ms as f64) as u32`
(`platform_sync.rs` line 280).  For configurations with a positive
integer interval the truncating `f64` division equals `Nat` division. -/
def AnimationConfig.steps (cfg : AnimationConfig) : Nat :=
  cfg.duration_ms / cfg.interval_ms

/-- The steps formula written in the spec's words (§4.G: `steps =
round(duration_ms * fps / 1000)`), for comparison against the code's
`AnimationConfig.steps`. -/
def AnimationConfig.spec_steps (cfg : AnimationConfig) : Nat :=
  (cfg.duration_ms * cfg.fps + 500) / 1000

/-- The early-exit check of the animation task (`platform_sync.rs` lines
260-263): the x, y, width and height deltas between starting and ending
rect are all smaller than 2 px. -/
def anim_early_exit (start_rect end_rect : Rect) : Bool :=
  (start_rect.x - end_rect.x).natAbs < 2 &&
  (start_rect.y - end_rect.y).natAbs < 2 &&
  (start_rect.width - end_rect.width).natAbs < 2 &&
  (start_rect.height - end_rect.height).natAbs < 2

/-- The condition written in the spec's words (§4.G: "all four edge
deltas are < 2 px"), over the four edges left/top/right/bottom, for
comparison against the code's `anim_early_exit`. -/
def spec_edge_deltas_lt_2 (start_rect end_rect : Rect) : Bool :=
  (start_rect.left - end_rect.left).natAbs < 2 &&
  (start_rect.top - end_rect.top).natAbs < 2 &&
  (start_rect.right - end_rect.right).natAbs < 2 &&
  (start_rect.bottom - end_rect.bottom).natAbs < 2

/-- One `set_position` call issued by the animation task: either the
interpolated write of loop iteration `i` (`platform_sync.rs` lines
284-307) or the final write of the ending rect (lines 265-272 on the
early-exit path, lines 309-316 after the loop). -/
inductive AnimWrite
  | interp (i : Nat)
  | final_write (r : Rect)
deriving DecidableEq, Repr

/-- `start_rect` of the animation task (`platform_sync.rs` lines
253-256): the OS-reported frame position, falling back to the final rect
when the query fails. -/
def anim_start_rect (frame_position : Option Rect) (final_rect : Rect) : Rect :=
  frame_position.getD final_rect

/-- The sequence of `set_position` calls issued by one animation task
(`platform_sync.rs` lines 252-317): on early exit a single write of the
ending rect; otherwise one interpolated write per loop iteration
`i = 1..steps` followed by exactly one write of the ending rect. -/
def anim_writes (cfg : AnimationConfig) (start_rect end_rect : Rect) :
    List AnimWrite :=
  if anim_early_exit start_rect end_rect then
    [AnimWrite.final_write end_rect]
  else
    ((List.range cfg.steps).map fun i => AnimWrite.interp (i + 1)) ++
      [AnimWrite.final_write end_rect]

end Wm

/-- C2 counterexample: with the default animation configuration (150 ms,
144 fps) the code performs `150 / (1000 / 144) = 25` interpolation steps,
not the `round(150 * 144 / 1000) = 22` steps the claim states; the
writes issued for a non-trivial move are the 25 interpolated writes plus
the final one, so the claimed count is wrong. -/
theorem anim_steps_counterexample :
    Wm.AnimationConfig.default.steps = 25 ∧
    Wm.AnimationConfig.default.spec_steps = 22 ∧
    Wm.AnimationConfig.default.steps ≠ Wm.AnimationConfig.default.spec_steps ∧
    Wm.anim_writes Wm.AnimationConfig.default ⟨0, 0, 800, 600⟩ ⟨400, 300, 1200, 900⟩ =
      ((List.range 25).map fun i => Wm.AnimWrite.interp (i + 1)) ++
        [Wm.AnimWrite.final_write ⟨400, 300, 1200, 900⟩] := by
  refine ⟨rfl, rfl, by decide, by decide⟩

/-- C2 amended: the animation task performs `steps = duration_ms /
(1000 / fps)` interpolation steps (integer division) spaced `1000 / fps`
milliseconds apart — 25 steps of 6 ms with the default 150 ms / 144 fps
configuration — and, whenever the early-exit check fails, issues exactly
those interpolated writes followed by the final rect written exactly
once after the loop. -/
theorem anim_steps_amended (cfg : Wm.AnimationConfig)
    (start_rect end_rect : Wm.Rect)
    (h : Wm.anim_early_exit start_rect end_rect = false) :
    Wm.anim_writes cfg start_rect end_rect =
      ((List.range cfg.steps).map fun i => Wm.AnimWrite.interp (i + 1)) ++
        [Wm.AnimWrite.final_write end_rect] ∧
    (Wm.anim_writes cfg start_rect end_rect).count
        (Wm.AnimWrite.final_write end_rect) = 1 ∧
    Wm.AnimationConfig.default.steps = 25 ∧
    Wm.AnimationConfig.default.interval_ms = 6 := by
  refine ⟨by simp [Wm.anim_writes, h], ?_, rfl, rfl⟩
  simp only [Wm.anim_writes, h, Bool.false_eq_true, if_false]
  rw [List.count_append]
  simp [List.count_eq_zero, List.count_cons]

/-- C2 amended witness: a concrete non-trivial move under the default
configuration issues 25 interpolated writes and one final write. -/
theorem anim_steps_amended_witness :
    Wm.anim_writes Wm.AnimationConfig.default ⟨0, 0, 800, 600⟩ ⟨400, 300, 1200, 900⟩ =
      ((List.range 25).map fun i => Wm.AnimWrite.interp (i + 1)) ++
        [Wm.AnimWrite.final_write ⟨400, 300, 1200, 900⟩] ∧
    (Wm.anim_writes Wm.AnimationConfig.default ⟨0, 0, 800, 600⟩
        ⟨400, 300, 1200, 900⟩).count
      (Wm.AnimWrite.final_write ⟨400, 300, 1200, 900⟩) = 1 := by
  have h := anim_steps_amended Wm.AnimationConfig.default
    ⟨0, 0, 800, 600⟩ ⟨400, 300, 1200, 900⟩ (by decide)
  exact ⟨h.1, h.2.1⟩

/-- C7 counterexample: between starting rect `(0,0,10,10)` and ending
rect `(1,0,9,10)` all four edge deltas (left 1, top 0, right 1, bottom 0)
are smaller than 2 px, yet the task does not skip interpolation: the
width delta is `|10 - 8| = 2`, the code's check fails, and the default
configuration issues 25 interpolated writes before the final one. -/
theorem anim_early_exit_counterexample :
    Wm.spec_edge_deltas_lt_2 ⟨0, 0, 10, 10⟩ ⟨1, 0, 9, 10⟩ = true ∧
    Wm.anim_early_exit ⟨0, 0, 10, 10⟩ ⟨1, 0, 9, 10⟩ = false ∧
    Wm.anim_writes Wm.AnimationConfig.default ⟨0, 0, 10, 10⟩ ⟨1, 0, 9, 10⟩ ≠
      [Wm.AnimWrite.final_write ⟨1, 0, 9, 10⟩] := by
  refine ⟨by decide, by decide, by decide⟩

/-- C7 amended: in every animation task, when the deltas in x, y, width
and height between the starting rect (the OS-reported frame position, or
the final rect when that query fails) and the ending rect are all
smaller than 2 px, the task skips interpolation entirely and writes the
final rect exactly once. -/
theorem anim_early_exit_amended (cfg : Wm.AnimationConfig)
    (frame_position : Option Wm.Rect) (final_rect : Wm.Rect)
    (h : Wm.anim_early_exit (Wm.anim_start_rect frame_position final_rect)
        final_rect = true) :
    Wm.anim_writes cfg (Wm.anim_start_rect frame_position final_rect) final_rect =
      [Wm.AnimWrite.final_write final_rect] := by
  simp [Wm.anim_writes, h]

/-- C7 amended witness: a 1 px move skips interpolation and issues the
single final write. -/
theorem anim_early_exit_amended_witness :
    Wm.anim_writes Wm.AnimationConfig.default
        (Wm.anim_start_rect (some ⟨0, 0, 100, 100⟩) ⟨1, 1, 101, 101⟩)
        ⟨1, 1, 101, 101⟩ =
      [Wm.AnimWrite.final_write ⟨1, 1, 101, 101⟩] :=
  anim_early_exit_amended Wm.AnimationConfig.default
    (some ⟨0, 0, 100, 100⟩) ⟨1, 1, 101, 101⟩ (by decide)

namespace Wm

/- ===================================================================
   Animation-task bookkeeping: `WmState.animation_handles`
   (`wm_state.rs` line 49) and the cancel-then-spawn-then-insert
   sequence in `platform_sync.rs` lines 246-252 and 319.  Tokio tasks
   are modelled by ids; per spec §5 the scheduling is cooperative and
   cancellation is point-in-time, so `abort` removes the task from the
   live set at once and a task that runs to completion removes itself.
   =================================================================== -/

/-- The `handle → task` map and the set of live animation tasks.
`handles` models the `HashMap<isize, JoinHandle<()>>` as an association
list from native window handle to task id; `live` holds the spawned
tasks (task id, window handle) that have neither finished nor been
aborted; `next_task` generates fresh task ids. -/
structure AnimState where
  handles : List (Int × Nat)
  live : List (Nat × Int)
  next_task : Nat
deriving DecidableEq, Repr

/-- Association-list lookup, the `HashMap::remove`/`get` key semantics. -/
def lookup_handle (h : Int) : List (Int × Nat) → Option Nat
  | [] => none
  | e :: rest => if e.1 = h then some e.2 else lookup_handle h rest

/-- Launching an animation for window handle `h` (`platform_sync.rs`
lines 246-252 and 319): `animation_handles.remove(&handle)` aborts any
previously stored task, then the new task is spawned and inserted. -/
def launch_animation (h : Int) (st : AnimState) : AnimState :=
  let st' :=
    match lookup_handle h st.handles with
    | some t =>
      { st with
        handles := st.handles.filter fun e => e.1 != h
        live := st.live.filter fun e => e.1 != t }
    | none => st
  { handles := (h, st'.next_task) :: st'.handles
    live := (st'.next_task, h) :: st'.live
    next_task := st'.next_task + 1 }

/-- An animation task completing on its own: it leaves the live set; its
entry in `animation_handles` is not removed (the code never prunes the
map on completion). -/
def finish_task (t : Nat) (st : AnimState) : AnimState :=
  { st with live := st.live.filter fun e => e.1 != t }

/-- `WmState::new` (`wm_state.rs` line 73): the handle map starts empty. -/
def AnimState.initial : AnimState := ⟨[], [], 0⟩

/-- The events that touch the animation bookkeeping: a reconciliation
turn launching an animation for a handle, or a task finishing. -/
inductive AnimOp
  | launch (h : Int)
  | finish (t : Nat)
deriving DecidableEq, Repr

def anim_step (st : AnimState) : AnimOp → AnimState
  | .launch h => launch_animation h st
  | .finish t => finish_task t st

def anim_run (ops : List AnimOp) : AnimState :=
  ops.foldl anim_step AnimState.initial

/-- Consistency of the bookkeeping: every live task is the one currently
stored in the handle map for its window handle. -/
def live_consistent (st : AnimState) : Bool :=
  st.live.all fun e => lookup_handle e.2 st.handles == some e.1

theorem lookup_handle_filter_ne (h h' : Int) (m : List (Int × Nat))
    (hne : h' ≠ h) :
    lookup_handle h' (m.filter fun e => e.1 != h) = lookup_handle h' m := by
  induction m with
  | nil => rfl
  | cons a m ih =>
    rcases eq_or_ne a.1 h with ha | ha
    · have hb : (a.1 != h) = false := by simp [ha]
      have ha2 : a.1 ≠ h' := by rw [ha]; exact fun hh => hne hh.symm
      simp only [List.filter_cons, hb, Bool.false_eq_true, if_false, ih,
        lookup_handle, if_neg ha2]
    · have hb : (a.1 != h) = true := by simp [ha]
      rcases eq_or_ne a.1 h' with ha' | ha'
      · simp only [List.filter_cons, hb, if_true, lookup_handle, if_pos ha']
      · simp only [List.filter_cons, hb, if_true, lookup_handle,
          if_neg ha', ih]

theorem live_consistent_launch (h : Int) (st : AnimState)
    (hc : live_consistent st = true) :
    live_consistent (launch_animation h st) = true := by
  simp only [live_consistent, List.all_eq_true] at hc ⊢
  intro e he
  match hlook : lookup_handle h st.handles with
  | some t =>
    simp only [launch_animation, hlook] at he ⊢
    rcases List.mem_cons.mp he with heq | hmem
    · subst heq; simp [lookup_handle]
    · have hmem' := List.mem_of_mem_filter hmem
      have hq := hc e hmem'
      have hne : e.2 ≠ h := by
        intro hh
        have : lookup_handle e.2 st.handles = some e.1 := by
          simpa using hq
        rw [hh, hlook] at this
        have het : e.1 = t := by injection this.symm
        have := List.of_mem_filter hmem
        simp [het] at this
      simp only [lookup_handle, if_neg (Ne.symm hne)]
      rw [lookup_handle_filter_ne h e.2 st.handles hne]
      exact hq
  | none =>
    simp only [launch_animation, hlook] at he ⊢
    rcases List.mem_cons.mp he with heq | hmem
    · subst heq; simp [lookup_handle]
    · have hq := hc e hmem
      have hne : e.2 ≠ h := by
        intro hh
        have : lookup_handle e.2 st.handles = some e.1 := by
          simpa using hq
        rw [hh, hlook] at this
        exact Option.noConfusion this
      simp only [lookup_handle, if_neg (Ne.symm hne)]
      exact hq

theorem live_consistent_finish (t : Nat) (st : AnimState)
    (hc : live_consistent st = true) :
    live_consistent (finish_task t st) = true := by
  simp only [live_consistent, List.all_eq_true] at hc ⊢
  intro e he
  exact hc e (List.mem_of_mem_filter he)

theorem pairwise_of_live_consistent (st : AnimState)
    (hc : live_consistent st = true) :
    List.Pairwise (fun a b : Nat × Int => a.2 = b.2 → a.1 = b.1) st.live := by
  simp only [live_consistent, List.all_eq_true] at hc
  have key : ∀ a ∈ st.live, ∀ b ∈ st.live, a.2 = b.2 → a.1 = b.1 := by
    intro a ha b hb hab
    have hqa : lookup_handle a.2 st.handles = some a.1 := by simpa using hc a ha
    have hqb : lookup_handle b.2 st.handles = some b.1 := by simpa using hc b hb
    rw [hab, hqb] at hqa
    injection hqa.symm
  exact List.pairwise_of_forall_mem_list fun a ha b hb => key a ha b hb

theorem live_consistent_anim_run (ops : List AnimOp) :
    live_consistent (anim_run ops) = true := by
  suffices h : ∀ st, live_consistent st = true →
      live_consistent (ops.foldl anim_step st) = true by
    exact h AnimState.initial rfl
  induction ops with
  | nil => intro st hst; simpa using hst
  | cons op ops ih =>
    intro st hst
    simp only [List.foldl_cons]
    apply ih
    cases op with
    | launch h => exact live_consistent_launch h st hst
    | finish t => exact live_consistent_finish t st hst

end Wm

namespace Wm

/- ===================================================================
   Reconciliation: `platform_sync` in
   `packages/wm/src/commands/general/platform_sync.rs` and the state it
   reads from `wm_state.rs`.  The container tree is flattened: windows
   carry their workspace id, workspaces carry their descendant focus
   order as a list of container ids, and geometry projection
   (`to_rect() + total_border_delta`, outside `src/`) is abstracted as a
   per-window rect input.
   =================================================================== -/

/-- Z-order target (`wm_platform::ZOrder`, used at `platform_sync.rs`
lines 185-209). -/
inductive ZOrder
  | top_most
  | normal
  | after_window (handle : Int)
deriving DecidableEq, Repr

/-- Display state (`wm_common::DisplayState`). -/
inductive DisplayState
  | hidden
  | hiding
  | showing
  | shown
deriving DecidableEq, Repr

/-- Hide method (`parsed_config.rs` lines 120-126). -/
inductive HideMethod
  | hide
  | cloak
deriving DecidableEq, Repr

/-- Cursor jump trigger (`parsed_config.rs` lines 112-118). -/
inductive CursorJumpTrigger
  | monitor_focus
  | window_focus
deriving DecidableEq, Repr

/-- Cursor jump config (`parsed_config.rs` lines 105-110). -/
structure CursorJumpConfig where
  enabled : Bool
  trigger : CursorJumpTrigger
deriving DecidableEq, Repr

/-- The slice of `GeneralConfig` that `platform_sync` reads
(`parsed_config.rs` lines 55-68). -/
structure GeneralConfig where
  cursor_jump : CursorJumpConfig
  hide_method : HideMethod
  show_all_in_taskbar : Bool
  animations : AnimationConfig
deriving DecidableEq, Repr

/-- Outbound event kinds (`wm_common::WmEvent`), at the granularity
`emit_event`'s `matches!` gate distinguishes. -/
inductive WmEventKind
  | focus_changed
  | window_managed
  | pause_changed
  | other_event
deriving DecidableEq, Repr

/-- A platform call issued during reconciliation.  The four effect
sub-calls of `apply_window_effects` (`platform_sync.rs` lines 399-491)
are collapsed into one `apply_effects` entry. -/
inductive PlatformCall
  | set_foreground (handle : Int)
  | set_z_order (handle : Int) (z : ZOrder)
  | set_position (handle : Int) (r : Rect) (z : ZOrder) (visible : Bool)
  | spawn_animation (handle : Int)
  | mark_fullscreen (handle : Int) (enable : Bool)
  | set_taskbar_visibility (handle : Int) (visible : Bool)
  | set_cursor_pos (p : Point)
  | apply_effects (handle : Int) (focused : Bool)
deriving DecidableEq, Repr

/-- Modelled from the spec: the pending-sync ledger (§4.D;
`pending_sync.rs` is not under `src/`): focus/cursor/effect flags plus
the redraw and reorder sets, with `clear()` emptying all fields. -/
structure PendingSync where
  focus_update : Bool
  cursor_jump : Bool
  focused_effect_update : Bool
  all_effects_update : Bool
  containers_to_redraw : List Nat
  workspaces_to_reorder : List Nat
deriving DecidableEq, Repr

/-- Modelled from the spec: `PendingSync::clear()` empties all fields. -/
def PendingSync.clear : PendingSync :=
  ⟨false, false, false, false, [], []⟩

/-- All flags false and both sets empty. -/
def PendingSync.is_empty_ledger (p : PendingSync) : Bool :=
  !p.focus_update && !p.cursor_jump && !p.focused_effect_update &&
    !p.all_effects_update && p.containers_to_redraw.isEmpty &&
    p.workspaces_to_reorder.isEmpty

/-- A managed window as reconciliation reads it: identity, native
handle, window state, previous state, display state, owning workspace,
projected rect (including the border delta) and the pending-DPI flag. -/
structure SyncWindow where
  id : Nat
  handle : Int
  state : WindowState
  prev_state : Option WindowState
  display_state : DisplayState
  workspace_id : Option Nat
  rect : Rect
  has_pending_dpi : Bool
deriving DecidableEq, Repr

/-- A workspace as reconciliation reads it: identity, its descendant
focus order (container ids, most-recently-focused first) and whether it
is the displayed workspace of its monitor. -/
structure SyncWorkspace where
  id : Nat
  focus_order : List Nat
  is_displayed : Bool
deriving DecidableEq, Repr

/-- The focused container at the start of `platform_sync` (line 22):
its id, its native handle when it is a window (`as_window_container`),
its workspace, its monitor, and its projected rect. -/
structure FocusedInfo where
  id : Nat
  window_handle : Option Int
  workspace_id : Option Nat
  monitor_id : Option Nat
  rect : Rect
deriving DecidableEq, Repr

/-- The state read and written by `platform_sync` (`WmState` fields plus
the platform environment: foreground window, desktop sentinel, mouse
position), with logs of the platform calls issued and the events
emitted. -/
structure SyncState where
  pending_sync : PendingSync
  focused : Option FocusedInfo
  windows : List SyncWindow
  workspaces : List SyncWorkspace
  monitors : List (Nat × Rect)
  global_focus_order : List Nat
  prev_effects_window : Option Nat
  anim : AnimState
  foreground_handle : Int
  desktop_handle : Int
  mouse_position : Option Point
  has_initialized : Bool
  is_paused : Bool
  calls : List PlatformCall
  events : List WmEventKind

/-- `WmState::emit_event` gate (`wm_state.rs` lines 426-434): forward
only after initialization, and while paused only `PauseChanged`. -/
def should_emit (has_initialized is_paused : Bool) (ev : WmEventKind) : Bool :=
  has_initialized && (!is_paused || ev == WmEventKind.pause_changed)

/-- `WmState::emit_event` (`wm_state.rs` lines 426-434), recording the
forwarded event on the outbound stream. -/
def SyncState.emit_event (s : SyncState) (ev : WmEventKind) : SyncState :=
  if should_emit s.has_initialized s.is_paused ev then
    { s with events := s.events ++ [ev] }
  else
    s

/-- Append one platform call to the log. -/
def log_call (c : PlatformCall) (s : SyncState) : SyncState :=
  { s with calls := s.calls ++ [c] }

def find_window (s : SyncState) (id : Nat) : Option SyncWindow :=
  s.windows.find? fun w => w.id == id

def find_workspace (s : SyncState) (id : Nat) : Option SyncWorkspace :=
  s.workspaces.find? fun ws => ws.id == id

/-- `workspace.descendant_focus_order().next().and_then(as_window_container)`
(`platform_sync.rs` lines 121-124 and 193-196): the head of the
workspace's focus order, when it resolves to a window. -/
def focused_descendant_window (s : SyncState) (ws : SyncWorkspace) :
    Option SyncWindow :=
  ws.focus_order.head?.bind (find_window s)

/-- `matches!(state, Floating(_) | Tiling)` (`platform_sync.rs` lines
131-134). -/
def WindowState.is_floating_or_tiling : WindowState → Bool
  | .tiling => true
  | .floating _ _ => true
  | _ => false

/-- `windows_to_bring_to_front` (`platform_sync.rs` lines 100-146): for
each workspace in the reorder set (plus the focused workspace when a
focus update is pending, deduplicated), every floating-or-tiling window
of that workspace whose state variant equals the variant of the
workspace's focused descendant window. -/
def windows_to_bring_to_front (focused : FocusedInfo) (s : SyncState) :
    Except String (List SyncWindow) :=
  match focused.workspace_id with
  | none => .error "No workspace."
  | some focused_ws_id =>
    let workspace_ids :=
      (s.pending_sync.workspaces_to_reorder ++
        (if s.pending_sync.focus_update then [focused_ws_id] else [])).dedup
    .ok <| workspace_ids.flatMap fun ws_id =>
      match find_workspace s ws_id with
      | none => []
      | some ws =>
        match focused_descendant_window s ws with
        | some fd =>
          (s.windows.filter fun w => w.workspace_id == some ws.id).filter
            fun w =>
              w.state.is_floating_or_tiling && w.state.is_same_state fd.state
        | none => []

/-- The z-order target chosen for a window in the redraw loop
(`platform_sync.rs` lines 185-209). -/
def z_order_choice (s : SyncState) (w : SyncWindow)
    (should_bring_to_front : Bool) (workspace : SyncWorkspace) : ZOrder :=
  match w.state with
  | .floating _ true => .top_most
  | .fullscreen _ true => .top_most
  | _ =>
    if should_bring_to_front then
      match focused_descendant_window s workspace with
      | some fd =>
        if w.id = fd.id then .normal else .after_window fd.handle
      | none => .normal
    else
      .normal

/-- The two guarded `shown_on_top` arms of the z-order match
(`platform_sync.rs` lines 186-191). -/
def WindowState.is_shown_on_top : WindowState → Bool
  | .floating _ true => true
  | .fullscreen _ true => true
  | _ => false

/-- Display-state transition (`platform_sync.rs` lines 219-229). -/
def next_display_state (d : DisplayState) (workspace_displayed : Bool) :
    DisplayState :=
  match d, workspace_displayed with
  | .hidden, true => .showing
  | .hiding, true => .showing
  | .shown, false => .hiding
  | .showing, false => .hiding
  | _, _ => d

/-- Fullscreen-transition detection (`platform_sync.rs` lines 332-337). -/
def is_transitioning_fullscreen (prev : Option WindowState)
    (cur : WindowState) : Bool :=
  match prev, cur with
  | some _, .fullscreen false _ => true
  | some (.fullscreen _ _), _ => true
  | _, _ => false

end Wm

namespace Wm

/-- Replace the window with id `w.id` in the state (the in-place
mutation of a shared window container). -/
def update_window (s : SyncState) (w : SyncWindow) : SyncState :=
  { s with windows := s.windows.map fun x => if x.id = w.id then w else x }

/-- `WmState::windows_to_redraw` (`wm_state.rs` lines 411-420): the
redraw set expanded to window containers.  The flat model takes the
ledger's redraw set as window ids directly (the spec's ledger is a set,
hence the dedup). -/
def windows_to_redraw (s : SyncState) : List SyncWindow :=
  s.pending_sync.containers_to_redraw.dedup.filterMap (find_window s)

/-- `unique_by(|window| window.id())` keeping first occurrences. -/
def dedup_by_id_aux (seen : List Nat) : List SyncWindow → List SyncWindow
  | [] => []
  | w :: rest =>
    if seen.contains w.id then dedup_by_id_aux seen rest
    else w :: dedup_by_id_aux (w.id :: seen) rest

def dedup_by_id : List SyncWindow → List SyncWindow :=
  dedup_by_id_aux []

/-- `Option<usize>` ordering (Rust `Ord`): `None` sorts first. -/
def opt_key_lt : Option Nat → Option Nat → Bool
  | none, none => false
  | none, some _ => true
  | some _, none => false
  | some a, some b => a < b

/-- Stable insertion of `w` into a list sorted by key ascending. -/
def insert_by_pos (key : SyncWindow → Option Nat) (w : SyncWindow) :
    List SyncWindow → List SyncWindow
  | [] => [w]
  | x :: xs =>
    if opt_key_lt (key x) (key w) then x :: insert_by_pos key w xs
    else w :: x :: xs

/-- `sort_by_key` (stable) over the position key
(`platform_sync.rs` lines 170-174). -/
def sort_by_pos (key : SyncWindow → Option Nat) :
    List SyncWindow → List SyncWindow
  | [] => []
  | w :: rest => insert_by_pos key w (sort_by_pos key rest)

/-- `iter().position(...)` over the global descendant focus order. -/
def index_of_id (id : Nat) : List Nat → Option Nat
  | [] => none
  | x :: xs => if x = id then some 0 else (index_of_id id xs).map (· + 1)

/-- One iteration of the redraw loop (`platform_sync.rs` lines
179-360) for window `w`: choose the z-order target; windows that are
only reordered get a `set_z_order` call; otherwise step the display
state, then either launch an animation (cancelling the stored one) or
call `set_position` synchronously, then handle the fullscreen
transition and taskbar cloaking. -/
def redraw_one (cfg : GeneralConfig) (bring_ids redraw_ids : List Nat)
    (w : SyncWindow) (s : SyncState) : Except String SyncState :=
  let should_bring := bring_ids.contains w.id
  match w.workspace_id.bind (find_workspace s) with
  | none => .error "Window has no workspace."
  | some workspace =>
    let z := z_order_choice s w should_bring workspace
    if should_bring && !redraw_ids.contains w.id then
      .ok (log_call (.set_z_order w.handle z) s)
    else
      let w' := { w with
        display_state := next_display_state w.display_state workspace.is_displayed }
      let s := update_window s w'
      let is_visible :=
        w'.display_state == DisplayState.showing ||
          w'.display_state == DisplayState.shown
      let s :=
        if cfg.animations.enabled && is_visible then
          log_call (.spawn_animation w'.handle)
            { s with anim := launch_animation w'.handle s.anim }
        else
          log_call (.set_position w'.handle w'.rect z is_visible) s
      let s :=
        if is_transitioning_fullscreen w'.prev_state w'.state then
          log_call
            (.mark_fullscreen w'.handle
              (match w'.state with
               | .fullscreen _ _ => true
               | _ => false))
            s
        else s
      let s :=
        if cfg.hide_method == HideMethod.cloak && !cfg.show_all_in_taskbar &&
            (w'.display_state == DisplayState.showing ||
              w'.display_state == DisplayState.hiding) then
          log_call (.set_taskbar_visibility w'.handle is_visible) s
        else s
      .ok s

/-- The redraw loop over the reversed update list; a failed lookup
aborts the loop and propagates (the state mutated so far is kept). -/
def redraw_loop (cfg : GeneralConfig) (bring_ids redraw_ids : List Nat) :
    List SyncWindow → SyncState → SyncState × Option String
  | [], s => (s, none)
  | w :: rest, s =>
    match redraw_one cfg bring_ids redraw_ids w s with
    | .error e => (s, some e)
    | .ok s' => redraw_loop cfg bring_ids redraw_ids rest s'

/-- `redraw_containers` (`platform_sync.rs` lines 148-363): the union
of the redraw set and the bring-to-front set, deduplicated by window
id, sorted ascending by global descendant-focus-order position, and
iterated in reverse. -/
def redraw_containers (cfg : GeneralConfig) (focused : FocusedInfo)
    (s : SyncState) : SyncState × Option String :=
  let to_redraw := windows_to_redraw s
  match windows_to_bring_to_front focused s with
  | .error e => (s, some e)
  | .ok bring =>
    let to_update :=
      sort_by_pos (fun w => index_of_id w.id s.global_focus_order)
        (dedup_by_id (to_redraw ++ bring))
    redraw_loop cfg (bring.map (·.id)) (to_redraw.map (·.id))
      to_update.reverse s

/-- `sync_focus` (`platform_sync.rs` lines 72-98): set the OS
foreground to the focused window's handle (or the desktop sentinel)
when it differs, then emit `FocusChanged`.  `set_foreground` failures
are logged and swallowed. -/
def sync_focus (focused : FocusedInfo) (s : SyncState) : SyncState :=
  let native_handle := focused.window_handle.getD s.desktop_handle
  let s :=
    if s.foreground_handle != native_handle then
      log_call (.set_foreground native_handle) s
    else s
  s.emit_event .focus_changed

/-- `WmState::monitor_at_point` (`wm_state.rs` lines 506-516). -/
def monitor_at_point (s : SyncState) (p : Point) : Option (Nat × Rect) :=
  s.monitors.find? fun m => m.2.contains_point p

/-- `jump_cursor` (`platform_sync.rs` lines 365-397): on WindowFocus
jump to the focused container's center; on MonitorFocus jump to the
focused monitor's center only when the cursor sits on a different
monitor. -/
def jump_cursor (cfg : GeneralConfig) (focused : FocusedInfo)
    (s : SyncState) : SyncState × Option String :=
  match cfg.cursor_jump.trigger with
  | .window_focus =>
    (log_call (.set_cursor_pos focused.rect.center_point) s, none)
  | .monitor_focus =>
    match focused.monitor_id with
    | none => (s, some "No monitor.")
    | some target_id =>
      match s.mouse_position.bind (monitor_at_point s) with
      | some m =>
        if m.1 ≠ target_id then
          match s.monitors.find? fun mo => mo.1 == target_id with
          | some target =>
            (log_call (.set_cursor_pos target.2.center_point) s, none)
          | none => (s, none)
        else (s, none)
      | none => (s, none)

/-- The window-effects block (`platform_sync.rs` lines 41-65): apply
focused effects to the focused window (recording it as the previous
effects window), and unfocused effects to either all other windows
(`all_effects_update`) or the previously recorded one. -/
def effects_step (focused : FocusedInfo) (s : SyncState) : SyncState :=
  if s.pending_sync.focused_effect_update ||
      s.pending_sync.all_effects_update then
    let prev := s.prev_effects_window
    let s :=
      match focused.window_handle with
      | some h =>
        log_call (.apply_effects h true)
          { s with prev_effects_window := some focused.id }
      | none => { s with prev_effects_window := none }
    let unfocused :=
      (if s.pending_sync.all_effects_update then s.windows
       else (prev.bind (find_window s)).toList).filter
        fun w => w.id != focused.id
    unfocused.foldl (fun acc w => log_call (.apply_effects w.handle false) acc) s
  else s

/-- Step 2 of `platform_sync` (lines 29-33): run `redraw_containers`
when the redraw or reorder set is non-empty. -/
def sync_step_redraw (cfg : GeneralConfig) (focused : FocusedInfo)
    (s : SyncState) : SyncState × Option String :=
  if !s.pending_sync.containers_to_redraw.isEmpty ||
      !s.pending_sync.workspaces_to_reorder.isEmpty then
    redraw_containers cfg focused s
  else (s, none)

/-- Step 3 of `platform_sync` (lines 35-39): run `jump_cursor` when the
flag is queued and the feature enabled. -/
def sync_step_jump (cfg : GeneralConfig) (focused : FocusedInfo)
    (s : SyncState) : SyncState × Option String :=
  if s.pending_sync.cursor_jump && cfg.cursor_jump.enabled then
    jump_cursor cfg focused s
  else (s, none)

/-- `platform_sync` (`platform_sync.rs` lines 18-70): abort when there
is no focused container; run focus sync, redraw, cursor jump and
effects in order, propagating the first error; clear the ledger only
after all steps succeeded. -/
def platform_sync_run (cfg : GeneralConfig) (s : SyncState) :
    SyncState × Option String :=
  match s.focused with
  | none => (s, some "No focused container.")
  | some focused =>
    let s1 := if s.pending_sync.focus_update then sync_focus focused s else s
    match sync_step_redraw cfg focused s1 with
    | (s2, some e) => (s2, some e)
    | (s2, none) =>
      match sync_step_jump cfg focused s2 with
      | (s3, some e) => (s3, some e)
      | (s3, none) =>
        let s4 := effects_step focused s3
        ({ s4 with pending_sync := PendingSync.clear }, none)

end Wm

namespace Wm

theorem pending_sync_log_call (c : PlatformCall) (s : SyncState) :
    (log_call c s).pending_sync = s.pending_sync := rfl

theorem pending_sync_emit_event (s : SyncState) (ev : WmEventKind) :
    (s.emit_event ev).pending_sync = s.pending_sync := by
  unfold SyncState.emit_event
  split <;> rfl

theorem pending_sync_sync_focus (f : FocusedInfo) (s : SyncState) :
    (sync_focus f s).pending_sync = s.pending_sync := by
  simp only [sync_focus, pending_sync_emit_event]
  split <;> rfl

theorem pending_sync_redraw_one (cfg : GeneralConfig)
    (bring_ids redraw_ids : List Nat) (w : SyncWindow) (s s' : SyncState)
    (h : redraw_one cfg bring_ids redraw_ids w s = .ok s') :
    s'.pending_sync = s.pending_sync := by
  unfold redraw_one at h
  split at h
  · simp at h
  · dsimp only at h
    split at h
    · cases h
      rfl
    · cases h
      repeat' split
      all_goals rfl

theorem pending_sync_redraw_loop (cfg : GeneralConfig)
    (bring_ids redraw_ids : List Nat) (l : List SyncWindow) (s : SyncState) :
    (redraw_loop cfg bring_ids redraw_ids l s).1.pending_sync =
      s.pending_sync := by
  induction l generalizing s with
  | nil => rfl
  | cons w rest ih =>
    cases hred : redraw_one cfg bring_ids redraw_ids w s with
    | error e => simp [redraw_loop, hred]
    | ok s' =>
      have h1 := pending_sync_redraw_one cfg bring_ids redraw_ids w s s' hred
      simp [redraw_loop, hred, ih s', h1]

theorem pending_sync_redraw_containers (cfg : GeneralConfig)
    (f : FocusedInfo) (s : SyncState) :
    (redraw_containers cfg f s).1.pending_sync = s.pending_sync := by
  unfold redraw_containers
  split
  · rfl
  · exact pending_sync_redraw_loop cfg _ _ _ s

theorem pending_sync_jump_cursor (cfg : GeneralConfig) (f : FocusedInfo)
    (s : SyncState) :
    (jump_cursor cfg f s).1.pending_sync = s.pending_sync := by
  unfold jump_cursor
  repeat' split
  all_goals rfl

theorem pending_sync_foldl_log (l : List SyncWindow) (s : SyncState) :
    (l.foldl (fun acc w => log_call (.apply_effects w.handle false) acc)
      s).pending_sync = s.pending_sync := by
  induction l generalizing s with
  | nil => rfl
  | cons w rest ih =>
    rw [List.foldl_cons, ih]
    rfl

theorem pending_sync_effects_step (f : FocusedInfo) (s : SyncState) :
    (effects_step f s).pending_sync = s.pending_sync := by
  unfold effects_step
  split
  · cases f.window_handle
    all_goals simp only [pending_sync_foldl_log]
    all_goals rfl
  · rfl

theorem sync_step_redraw_pending (cfg : GeneralConfig) (f : FocusedInfo)
    (s : SyncState) :
    (sync_step_redraw cfg f s).1.pending_sync = s.pending_sync := by
  unfold sync_step_redraw
  split
  · exact pending_sync_redraw_containers cfg f s
  · rfl

theorem sync_step_jump_pending (cfg : GeneralConfig) (f : FocusedInfo)
    (s : SyncState) :
    (sync_step_jump cfg f s).1.pending_sync = s.pending_sync := by
  unfold sync_step_jump
  split
  · exact pending_sync_jump_cursor cfg f s
  · rfl

/-- Master lemma on the ledger through one reconciliation pass: either
the pass succeeded and the ledger was cleared, or it failed and the
ledger is exactly the input one. -/
theorem platform_sync_run_ledger (cfg : GeneralConfig) (s : SyncState) :
    ((platform_sync_run cfg s).2 = none ∧
      (platform_sync_run cfg s).1.pending_sync = PendingSync.clear) ∨
    ((platform_sync_run cfg s).2 ≠ none ∧
      (platform_sync_run cfg s).1.pending_sync = s.pending_sync) := by
  unfold platform_sync_run
  cases hf : s.focused with
  | none => exact Or.inr ⟨by simp, rfl⟩
  | some f =>
    dsimp only
    have hs1 : (if s.pending_sync.focus_update then sync_focus f s
        else s).pending_sync = s.pending_sync := by
      split
      · exact pending_sync_sync_focus f s
      · rfl
    cases h2 : sync_step_redraw cfg f
        (if s.pending_sync.focus_update then sync_focus f s else s) with
    | mk s2 e2 =>
      have hs2 : s2.pending_sync = s.pending_sync := by
        have hp := sync_step_redraw_pending cfg f
          (if s.pending_sync.focus_update then sync_focus f s else s)
        rw [h2] at hp
        exact hp.trans hs1
      cases e2 with
      | some e =>
        dsimp only
        exact Or.inr ⟨by simp, hs2⟩
      | none =>
        dsimp only
        cases h3 : sync_step_jump cfg f s2 with
        | mk s3 e3 =>
          have hs3 : s3.pending_sync = s.pending_sync := by
            have hp := sync_step_jump_pending cfg f s2
            rw [h3] at hp
            exact hp.trans hs2
          cases e3 with
          | some e =>
            dsimp only
            exact Or.inr ⟨by simp, hs3⟩
          | none =>
            dsimp only
            exact Or.inl ⟨rfl, rfl⟩

end Wm

namespace Wm

/-- `GeneralConfig::default` (`parsed_config.rs` lines 70-84), restricted
to the fields reconciliation reads. -/
def sync_cfg_default : GeneralConfig :=
  { cursor_jump := { enabled := false, trigger := .monitor_focus }
    hide_method := .cloak
    show_all_in_taskbar := false
    animations := AnimationConfig.default }

/-- A state invoking reconciliation with a pending focus update but no
focused container. -/
def sync_state_no_focus : SyncState :=
  { pending_sync := ⟨true, false, false, false, [], []⟩
    focused := none
    windows := []
    workspaces := []
    monitors := []
    global_focus_order := []
    prev_effects_window := none
    anim := AnimState.initial
    foreground_handle := 1
    desktop_handle := 0
    mouse_position := none
    has_initialized := true
    is_paused := false
    calls := []
    events := [] }

/-- A focused window container for the success scenario. -/
def focused_info0 : FocusedInfo :=
  { id := 10
    window_handle := some 100
    workspace_id := some 1
    monitor_id := some 1
    rect := ⟨0, 0, 800, 600⟩ }

/-- A state whose reconciliation pass succeeds (focus update only). -/
def sync_state_success : SyncState :=
  { sync_state_no_focus with focused := some focused_info0 }

/-- A second no-focus state with a differently shaped non-empty ledger. -/
def sync_state_no_focus2 : SyncState :=
  { sync_state_no_focus with
    pending_sync := ⟨false, true, true, false, [3], []⟩ }

end Wm

/-- C6 counterexample: invoked on a state with no focused container and
a pending focus update, reconciliation returns the "No focused
container." error and the ledger is not empty afterwards, so the ledger
does not clear for every state in which reconciliation is invoked. -/
theorem ledger_clear_counterexample :
    (Wm.platform_sync_run Wm.sync_cfg_default Wm.sync_state_no_focus).2 =
      some "No focused container." ∧
    (Wm.platform_sync_run Wm.sync_cfg_default
        Wm.sync_state_no_focus).1.pending_sync.is_empty_ledger = false := by
  exact ⟨rfl, rfl⟩

/-- C6 amended: after every reconciliation turn that completes without
an error, the pending-sync ledger is empty: all flags are false and the
redraw and reorder sets are empty. -/
theorem ledger_clear_on_success (cfg : Wm.GeneralConfig) (s : Wm.SyncState)
    (h : (Wm.platform_sync_run cfg s).2 = none) :
    (Wm.platform_sync_run cfg s).1.pending_sync = Wm.PendingSync.clear ∧
    (Wm.platform_sync_run cfg s).1.pending_sync.is_empty_ledger = true := by
  rcases Wm.platform_sync_run_ledger cfg s with ⟨_, hc⟩ | ⟨hne, _⟩
  · exact ⟨hc, by rw [hc]; rfl⟩
  · exact absurd h hne

/-- C6 amended witness: a successful pass over a concrete state leaves
the cleared ledger. -/
theorem ledger_clear_on_success_witness :
    (Wm.platform_sync_run Wm.sync_cfg_default
        Wm.sync_state_success).1.pending_sync = Wm.PendingSync.clear ∧
    (Wm.platform_sync_run Wm.sync_cfg_default
        Wm.sync_state_success).1.pending_sync.is_empty_ledger = true :=
  ledger_clear_on_success Wm.sync_cfg_default Wm.sync_state_success rfl

/-- C9: when reconciliation returns an error — in particular when no
focused container exists — the pending-sync ledger is exactly the input
ledger: it is cleared only on the fully successful path. -/
theorem error_preserves_ledger (cfg : Wm.GeneralConfig) (s : Wm.SyncState)
    (e : String)
    (h : (Wm.platform_sync_run cfg s).2 = some e) :
    (Wm.platform_sync_run cfg s).1.pending_sync = s.pending_sync := by
  rcases Wm.platform_sync_run_ledger cfg s with ⟨hn, _⟩ | ⟨_, hp⟩
  · rw [hn] at h
    exact Option.noConfusion h
  · exact hp

/-- C9 witness: the no-focused-container error leaves the concrete
non-empty ledger untouched. -/
theorem error_preserves_ledger_witness :
    (Wm.platform_sync_run Wm.sync_cfg_default
        Wm.sync_state_no_focus2).1.pending_sync =
      Wm.sync_state_no_focus2.pending_sync :=
  error_preserves_ledger Wm.sync_cfg_default Wm.sync_state_no_focus2
    "No focused container." rfl

namespace Wm

/-- Membership in the bring-to-front set implies the contributing
workspace has a focused descendant window of matching state variant, so
the z-order rule's focused-descendant lookup cannot come up empty for a
brought-to-front window. -/
theorem bring_to_front_mem_focused_descendant (f : FocusedInfo)
    (s : SyncState) (l : List SyncWindow) (w : SyncWindow)
    (h : windows_to_bring_to_front f s = .ok l) (hw : w ∈ l) :
    ∃ ws fd, focused_descendant_window s ws = some fd ∧
      w.workspace_id = some ws.id ∧
      w.state.is_floating_or_tiling = true ∧
      w.state.is_same_state fd.state = true := by
  unfold windows_to_bring_to_front at h
  cases hws : f.workspace_id with
  | none => rw [hws] at h; simp at h
  | some fid =>
    rw [hws] at h
    have hl : l = ((s.pending_sync.workspaces_to_reorder ++
        (if s.pending_sync.focus_update then [fid] else [])).dedup).flatMap
        fun ws_id =>
          match find_workspace s ws_id with
          | none => []
          | some ws =>
            match focused_descendant_window s ws with
            | some fd =>
              (s.windows.filter fun w => w.workspace_id == some ws.id).filter
                fun w =>
                  w.state.is_floating_or_tiling &&
                    w.state.is_same_state fd.state
            | none => [] := by
      cases h
      rfl
    rw [hl] at hw
    obtain ⟨ws_id, _, hmem⟩ := List.mem_flatMap.mp hw
    cases hfind : find_workspace s ws_id with
    | none => rw [hfind] at hmem; simp at hmem
    | some ws =>
      rw [hfind] at hmem
      dsimp only at hmem
      cases hfd : focused_descendant_window s ws with
      | none => rw [hfd] at hmem; simp at hmem
      | some fd =>
        rw [hfd] at hmem
        dsimp only at hmem
        obtain ⟨hmem1, hpred⟩ := List.mem_filter.mp hmem
        obtain ⟨_, hwsid⟩ := List.mem_filter.mp hmem1
        simp only [Bool.and_eq_true] at hpred
        obtain ⟨hft, hsame⟩ := hpred
        exact ⟨ws, fd, hfd, by simpa using hwsid, hft, hsame⟩

end Wm

/-- C4: the z-order target for a window in the redraw loop is `TopMost`
for Floating-with-shownOnTop or Fullscreen-with-shownOnTop; otherwise,
for a window in the bring-to-front set it is `Normal` when the window
is its workspace's focused descendant and `AfterWindow` of that
descendant's handle when it is not; and `Normal` in all remaining
cases. -/
theorem z_order_target (s : Wm.SyncState) (ws : Wm.SyncWorkspace)
    (w : Wm.SyncWindow) (b : Bool) :
    (w.state.is_shown_on_top = true →
      Wm.z_order_choice s w b ws = Wm.ZOrder.top_most) ∧
    (w.state.is_shown_on_top = false → b = true →
      ∀ fd, Wm.focused_descendant_window s ws = some fd →
        Wm.z_order_choice s w b ws =
          if w.id = fd.id then Wm.ZOrder.normal
          else Wm.ZOrder.after_window fd.handle) ∧
    (w.state.is_shown_on_top = false → b = false →
      Wm.z_order_choice s w b ws = Wm.ZOrder.normal) := by
  refine ⟨fun htop => ?_, fun hnot hb fd hfd => ?_, fun hnot hb => ?_⟩
  · cases hw : w.state with
    | tiling => rw [hw] at htop; simp [Wm.WindowState.is_shown_on_top] at htop
    | floating c t =>
      cases t with
      | true => simp [Wm.z_order_choice, hw]
      | false => rw [hw] at htop; simp [Wm.WindowState.is_shown_on_top] at htop
    | fullscreen m t =>
      cases t with
      | true => simp [Wm.z_order_choice, hw]
      | false => rw [hw] at htop; simp [Wm.WindowState.is_shown_on_top] at htop
    | minimized => rw [hw] at htop; simp [Wm.WindowState.is_shown_on_top] at htop
  · cases hw : w.state with
    | tiling => simp [Wm.z_order_choice, hw, hb, hfd]
    | floating c t =>
      cases t with
      | true => rw [hw] at hnot; simp [Wm.WindowState.is_shown_on_top] at hnot
      | false => simp [Wm.z_order_choice, hw, hb, hfd]
    | fullscreen m t =>
      cases t with
      | true => rw [hw] at hnot; simp [Wm.WindowState.is_shown_on_top] at hnot
      | false => simp [Wm.z_order_choice, hw, hb, hfd]
    | minimized => simp [Wm.z_order_choice, hw, hb, hfd]
  · cases hw : w.state with
    | tiling => simp [Wm.z_order_choice, hw, hb]
    | floating c t =>
      cases t with
      | true => rw [hw] at hnot; simp [Wm.WindowState.is_shown_on_top] at hnot
      | false => simp [Wm.z_order_choice, hw, hb]
    | fullscreen m t =>
      cases t with
      | true => rw [hw] at hnot; simp [Wm.WindowState.is_shown_on_top] at hnot
      | false => simp [Wm.z_order_choice, hw, hb]
    | minimized => simp [Wm.z_order_choice, hw, hb]

namespace Wm

/-- Scenario S6 windows: Y focused, Z and X below, all floating and not
shown on top. -/
def window_y : SyncWindow where
  id := 1
  handle := 101
  state := .floating false false
  prev_state := none
  display_state := .shown
  workspace_id := some 1
  rect := ⟨0, 0, 400, 300⟩
  has_pending_dpi := false

def window_z : SyncWindow where
  id := 2
  handle := 102
  state := .floating false false
  prev_state := none
  display_state := .shown
  workspace_id := some 1
  rect := ⟨40, 40, 440, 340⟩
  has_pending_dpi := false

def workspace_yzx : SyncWorkspace where
  id := 1
  focus_order := [1, 2, 3]
  is_displayed := true

def focused_info_y : FocusedInfo where
  id := 1
  window_handle := some 101
  workspace_id := some 1
  monitor_id := some 1
  rect := ⟨0, 0, 400, 300⟩

def sync_state_yzx : SyncState :=
  { sync_state_no_focus with
    focused := some focused_info_y
    windows := [window_y, window_z]
    workspaces := [workspace_yzx]
    global_focus_order := [1, 2, 3] }

end Wm

/-- C4 witness: in the S6-style workspace with focus order [Y, Z], the
focused window Y gets `Normal` and the non-focused Z gets
`AfterWindow(Y)`. -/
theorem z_order_target_witness :
    Wm.z_order_choice Wm.sync_state_yzx Wm.window_y true Wm.workspace_yzx =
      (if Wm.window_y.id = Wm.window_y.id then Wm.ZOrder.normal
        else Wm.ZOrder.after_window Wm.window_y.handle) ∧
    Wm.z_order_choice Wm.sync_state_yzx Wm.window_z true Wm.workspace_yzx =
      (if Wm.window_z.id = Wm.window_y.id then Wm.ZOrder.normal
        else Wm.ZOrder.after_window Wm.window_y.handle) :=
  ⟨(z_order_target Wm.sync_state_yzx Wm.workspace_yzx Wm.window_y
      true).2.1 (by decide) rfl Wm.window_y (by decide),
    (z_order_target Wm.sync_state_yzx Wm.workspace_yzx Wm.window_z
      true).2.1 (by decide) rfl Wm.window_y (by decide)⟩

namespace Wm

theorem anim_log_call (c : PlatformCall) (s : SyncState) :
    (log_call c s).anim = s.anim := rfl

theorem anim_emit_event (s : SyncState) (ev : WmEventKind) :
    (s.emit_event ev).anim = s.anim := by
  unfold SyncState.emit_event
  split <;> rfl

theorem anim_sync_focus (f : FocusedInfo) (s : SyncState) :
    (sync_focus f s).anim = s.anim := by
  simp only [sync_focus, anim_emit_event]
  split <;> rfl

theorem live_consistent_redraw_one (cfg : GeneralConfig)
    (bring_ids redraw_ids : List Nat) (w : SyncWindow) (s s' : SyncState)
    (h : redraw_one cfg bring_ids redraw_ids w s = .ok s')
    (hc : live_consistent s.anim = true) :
    live_consistent s'.anim = true := by
  unfold redraw_one at h
  split at h
  · simp at h
  · dsimp only at h
    split at h
    · cases h
      exact hc
    · cases h
      repeat' split
      all_goals
        first
          | exact hc
          | exact live_consistent_launch _ _ hc

theorem live_consistent_redraw_loop (cfg : GeneralConfig)
    (bring_ids redraw_ids : List Nat) (l : List SyncWindow) (s : SyncState)
    (hc : live_consistent s.anim = true) :
    live_consistent (redraw_loop cfg bring_ids redraw_ids l s).1.anim =
      true := by
  induction l generalizing s with
  | nil => exact hc
  | cons w rest ih =>
    cases hred : redraw_one cfg bring_ids redraw_ids w s with
    | error e => simpa [redraw_loop, hred] using hc
    | ok s' =>
      have h1 := live_consistent_redraw_one cfg bring_ids redraw_ids w s s'
        hred hc
      simpa [redraw_loop, hred] using ih s' h1

theorem live_consistent_sync_step_redraw (cfg : GeneralConfig)
    (f : FocusedInfo) (s : SyncState)
    (hc : live_consistent s.anim = true) :
    live_consistent (sync_step_redraw cfg f s).1.anim = true := by
  unfold sync_step_redraw
  split
  · unfold redraw_containers
    split
    · exact hc
    · exact live_consistent_redraw_loop cfg _ _ _ s hc
  · exact hc

theorem anim_jump_cursor (cfg : GeneralConfig) (f : FocusedInfo)
    (s : SyncState) :
    (jump_cursor cfg f s).1.anim = s.anim := by
  unfold jump_cursor
  repeat' split
  all_goals rfl

theorem anim_sync_step_jump (cfg : GeneralConfig) (f : FocusedInfo)
    (s : SyncState) :
    (sync_step_jump cfg f s).1.anim = s.anim := by
  unfold sync_step_jump
  split
  · exact anim_jump_cursor cfg f s
  · rfl

theorem anim_foldl_log (l : List SyncWindow) (s : SyncState) :
    (l.foldl (fun acc w => log_call (.apply_effects w.handle false) acc)
      s).anim = s.anim := by
  induction l generalizing s with
  | nil => rfl
  | cons w rest ih =>
    rw [List.foldl_cons, ih]
    rfl

theorem anim_effects_step (f : FocusedInfo) (s : SyncState) :
    (effects_step f s).anim = s.anim := by
  unfold effects_step
  split
  · cases f.window_handle
    all_goals simp only [anim_foldl_log]
    all_goals rfl
  · rfl

/-- Live-task consistency is preserved by one whole reconciliation
pass: the only operation on the handle map is the cancel-then-insert of
`launch_animation` inside the redraw loop. -/
theorem live_consistent_platform_sync (cfg : GeneralConfig) (s : SyncState)
    (hc : live_consistent s.anim = true) :
    live_consistent (platform_sync_run cfg s).1.anim = true := by
  unfold platform_sync_run
  cases hf : s.focused with
  | none => exact hc
  | some f =>
    dsimp only
    have hs1 : (if s.pending_sync.focus_update then sync_focus f s
        else s).anim = s.anim := by
      split
      · exact anim_sync_focus f s
      · rfl
    have hc1 : live_consistent (if s.pending_sync.focus_update then
        sync_focus f s else s).anim = true := by
      rw [hs1]
      exact hc
    cases h2 : sync_step_redraw cfg f
        (if s.pending_sync.focus_update then sync_focus f s else s) with
    | mk s2 e2 =>
      have hc2 : live_consistent s2.anim = true := by
        have hp := live_consistent_sync_step_redraw cfg f
          (if s.pending_sync.focus_update then sync_focus f s else s) hc1
        rw [h2] at hp
        exact hp
      cases e2 with
      | some e => exact hc2
      | none =>
        dsimp only
        cases h3 : sync_step_jump cfg f s2 with
        | mk s3 e3 =>
          have hc3 : live_consistent s3.anim = true := by
            have hp := anim_sync_step_jump cfg f s2
            rw [h3] at hp
            dsimp only at hp
            rw [hp]
            exact hc2
          cases e3 with
          | some e => exact hc3
          | none =>
            dsimp only
            have he := anim_effects_step f s3
            show live_consistent (effects_step f s3).anim = true
            rw [he]
            exact hc3

end Wm

/-- C5: whenever reconciliation launches an animation for a window
handle, the previously stored task for that handle is aborted and
removed before the new task is started: only the fresh task is live for
that handle immediately after a launch, any sequence of launches and
completions keeps live tasks pairwise distinct in handle, and a whole
reconciliation pass preserves that invariant. -/
theorem animation_cancel_before_launch :
    (∀ ops : List Wm.AnimOp,
      List.Pairwise (fun a b : Nat × Int => a.2 = b.2 → a.1 = b.1)
        (Wm.anim_run ops).live) ∧
    (∀ (st : Wm.AnimState) (h : Int),
      Wm.live_consistent st = true →
      ∀ e ∈ (Wm.launch_animation h st).live, e.2 = h →
        e = (st.next_task, h)) ∧
    (∀ (cfg : Wm.GeneralConfig) (s : Wm.SyncState),
      Wm.live_consistent s.anim = true →
      List.Pairwise (fun a b : Nat × Int => a.2 = b.2 → a.1 = b.1)
        (Wm.platform_sync_run cfg s).1.anim.live) := by
  refine ⟨?_, ?_, ?_⟩
  · intro ops
    exact Wm.pairwise_of_live_consistent _ (Wm.live_consistent_anim_run ops)
  · intro st h hc e he heq
    unfold Wm.launch_animation at he
    cases hl : Wm.lookup_handle h st.handles with
    | some t =>
      rw [hl] at he
      dsimp only at he
      rcases List.mem_cons.mp he with hnew | hmem
      · subst hnew
        rfl
      · exfalso
        simp only [Wm.live_consistent, List.all_eq_true] at hc
        have hq := hc e (List.mem_of_mem_filter hmem)
        have hq' : Wm.lookup_handle e.2 st.handles = some e.1 := by
          simpa using hq
        rw [heq, hl] at hq'
        have het : e.1 = t := by injection hq'.symm
        have := List.of_mem_filter hmem
        simp [het] at this
    | none =>
      rw [hl] at he
      dsimp only at he
      rcases List.mem_cons.mp he with hnew | hmem
      · subst hnew
        rfl
      · exfalso
        simp only [Wm.live_consistent, List.all_eq_true] at hc
        have hq := hc e hmem
        have hq' : Wm.lookup_handle e.2 st.handles = some e.1 := by
          simpa using hq
        rw [heq, hl] at hq'
        exact Option.noConfusion hq'
  · intro cfg s hc
    exact Wm.pairwise_of_live_consistent _
      (Wm.live_consistent_platform_sync cfg s hc)

/-- C5 witness: launching over a stored task for handle 5 leaves the
fresh task as the only live one for that handle. -/
theorem animation_cancel_before_launch_witness :
    ((1 : Nat), (5 : Int)) =
      ((Wm.AnimState.mk [(5, 0)] [(0, 5)] 1).next_task, 5) :=
  animation_cancel_before_launch.2.1 (Wm.AnimState.mk [(5, 0)] [(0, 5)] 1) 5
    (by decide) (1, 5) (by decide) rfl

namespace Wm

/- ===================================================================
   Drag controller: `handle_mouse_move` in
   `packages/wm/src/events/handle_mouse_move.rs` and `DragState` in
   `wm_state.rs` (lines 29-32).
   =================================================================== -/

/-- A managed window as the drag controller sees it: identity, window
state, and the position of its projected rect (`to_rect().x()/y()`). -/
structure DragWindow where
  id : Nat
  state : WindowState
  pos : Point
deriving DecidableEq, Repr

/-- `DragState` (`wm_state.rs` lines 29-32). -/
structure DragState where
  start_point : Point
  window_id : Nat
deriving DecidableEq, Repr

/-- `MouseMoveEvent`: the cursor point and the left-button flag. -/
structure MouseMoveEvent where
  point : Point
  is_mouse_down : Bool
deriving DecidableEq, Repr

/-- The config slice the mouse handler reads: focus-follows-cursor and
the floating state defaults used when a dragged tiling window floats. -/
structure DragConfig where
  focus_follows_cursor : Bool
  floating_centered : Bool
  floating_shown_on_top : Bool
deriving DecidableEq, Repr

/-- The state the mouse handler reads and writes. -/
structure MouseState where
  drag_state : Option DragState
  windows : List DragWindow
  focused_id : Option Nat
  focused_monitor_id : Option Nat
  monitors : List (Nat × Rect)
  is_focus_synced : Bool
  pending_focus_change : Bool
deriving DecidableEq, Repr

def find_drag_window (l : List DragWindow) (id : Nat) : Option DragWindow :=
  l.find? fun w => w.id == id

/-- Modelled from the spec: `update_window_state(.., Floating(defaults))`
for the dragged tiling window (§4.H; the command is not under `src/`):
the window's state becomes Floating with the configured defaults and its
floating placement is its current screen rect, so its position is kept. -/
def float_window (cfg : DragConfig) (id : Nat) (l : List DragWindow) :
    List DragWindow :=
  l.map fun w =>
    if w.id = id then
      { w with
        state := .floating cfg.floating_centered cfg.floating_shown_on_top }
    else w

/-- Modelled from the spec: `set_window_position(..,
Coordinates(new_x, new_y))` (§4.H; the command is not under `src/`):
the window's position becomes the given coordinates. -/
def set_window_position (id : Nat) (p : Point) (l : List DragWindow) :
    List DragWindow :=
  l.map fun w => if w.id = id then { w with pos := p } else w

/-- The focus-follows-cursor tail of `handle_mouse_move`
(`handle_mouse_move.rs` lines 119-155). -/
def mouse_focus_logic (cfg : DragConfig) (window_at_point : Option Nat)
    (e : MouseMoveEvent) (s : MouseState) : Except String MouseState :=
  if e.is_mouse_down || !s.is_focus_synced || !cfg.focus_follows_cursor then
    .ok s
  else
    match window_at_point.bind (find_drag_window s.windows) with
    | some w =>
      match s.focused_id with
      | none => .error "No focused container."
      | some fid =>
        if fid ≠ w.id then
          .ok { s with
            focused_id := some w.id
            pending_focus_change := true }
        else .ok s
    | none =>
      match s.monitors.find? fun m => m.2.contains_point e.point with
      | none => .error "No monitor under cursor."
      | some cm =>
        match s.focused_monitor_id with
        | none => .error "Focused container has no monitor."
        | some fmid =>
          if cm.1 ≠ fmid then
            .ok { s with
              focused_monitor_id := some cm.1
              pending_focus_change := true }
          else .ok s

/-- `handle_mouse_move` (`handle_mouse_move.rs` lines 17-156):
with Alt held, the left button down and no drag in progress, the window
under the cursor starts a drag (floating it when tiling); while a drag
is live, a button-down move repositions the window by the cursor delta
since the last recorded point and updates that point, consuming the
event; a button-up move ends the drag; otherwise the focus-follows
logic runs.  `window_at_point` is the managed root-ancestor window
under the cursor. -/
def handle_mouse_move (cfg : DragConfig) (alt_down : Bool)
    (window_at_point : Option Nat) (e : MouseMoveEvent) (s : MouseState) :
    Except String MouseState :=
  let s :=
    if alt_down && e.is_mouse_down && s.drag_state.isNone then
      match window_at_point.bind (find_drag_window s.windows) with
      | some w =>
        let s := { s with drag_state := some ⟨e.point, w.id⟩ }
        if w.state = WindowState.tiling then
          { s with windows := float_window cfg w.id s.windows }
        else s
      | none => s
    else s
  match s.drag_state with
  | some ds =>
    if !e.is_mouse_down then
      mouse_focus_logic cfg window_at_point e { s with drag_state := none }
    else
      let s :=
        match find_drag_window s.windows ds.window_id with
        | some w =>
          { s with
            windows := set_window_position w.id
              ⟨w.pos.x + (e.point.x - ds.start_point.x),
                w.pos.y + (e.point.y - ds.start_point.y)⟩ s.windows }
        | none => s
      .ok { s with drag_state := some ⟨e.point, ds.window_id⟩ }
  | none => mouse_focus_logic cfg window_at_point e s

end Wm

/-- C8: an Alt+left-button press over a tiling window with no drag in
progress floats the window (keeping its position), and the next
button-down move repositions it by the cursor delta since the previous
event; a press at (500, 500) followed by a move to (520, 510) puts the
window at original + (20, 10). -/
theorem drag_floats_tiling_window (cfg : Wm.DragConfig) (alt2 : Bool)
    (p : Wm.Point) (fid fmid : Option Nat)
    (mons : List (Nat × Wm.Rect)) (fs : Bool) :
    ∃ s1 s2,
      Wm.handle_mouse_move cfg true (some 7) ⟨⟨500, 500⟩, true⟩
        { drag_state := none
          windows := [⟨7, .tiling, p⟩]
          focused_id := fid
          focused_monitor_id := fmid
          monitors := mons
          is_focus_synced := fs
          pending_focus_change := false } = .ok s1 ∧
      Wm.find_drag_window s1.windows 7 =
        some ⟨7,
          .floating cfg.floating_centered cfg.floating_shown_on_top, p⟩ ∧
      Wm.handle_mouse_move cfg alt2 (some 7) ⟨⟨520, 510⟩, true⟩ s1 =
        .ok s2 ∧
      Wm.find_drag_window s2.windows 7 =
        some ⟨7,
          .floating cfg.floating_centered cfg.floating_shown_on_top,
          ⟨p.x + 20, p.y + 10⟩⟩ := by
  cases alt2 with
  | false =>
    refine ⟨_, _, rfl, ?_, rfl, ?_⟩
    · simp [Wm.find_drag_window, Wm.float_window, Wm.set_window_position]
    · simp [Wm.find_drag_window, Wm.float_window, Wm.set_window_position]
  | true =>
    refine ⟨_, _, rfl, ?_, rfl, ?_⟩
    · simp [Wm.find_drag_window, Wm.float_window, Wm.set_window_position]
    · simp [Wm.find_drag_window, Wm.float_window, Wm.set_window_position]

/-- C10: `emit_event` forwards no event before initialization; while
paused it forwards only `PauseChanged`; in all other cases the event is
forwarded to the outbound stream. -/
theorem emit_event_gating (s : Wm.SyncState) (ev : Wm.WmEventKind) :
    (s.has_initialized = false → (s.emit_event ev).events = s.events) ∧
    (s.has_initialized = true → s.is_paused = true →
      ev ≠ Wm.WmEventKind.pause_changed →
      (s.emit_event ev).events = s.events) ∧
    (s.has_initialized = true → s.is_paused = true →
      (s.emit_event Wm.WmEventKind.pause_changed).events =
        s.events ++ [Wm.WmEventKind.pause_changed]) ∧
    (s.has_initialized = true → s.is_paused = false →
      (s.emit_event ev).events = s.events ++ [ev]) := by
  refine ⟨fun h0 => ?_, fun hi hp hne => ?_, fun hi hp => ?_, fun hi hp => ?_⟩
  · simp [Wm.SyncState.emit_event, Wm.should_emit, h0]
  · simp [Wm.SyncState.emit_event, Wm.should_emit, hi, hp, hne]
  · simp [Wm.SyncState.emit_event, Wm.should_emit, hi, hp]
  · simp [Wm.SyncState.emit_event, Wm.should_emit, hi, hp]

/-- C10 witness: an initialized, unpaused state forwards a
`WindowManaged` event. -/
theorem emit_event_gating_witness :
    (Wm.sync_state_no_focus.emit_event Wm.WmEventKind.window_managed).events =
      Wm.sync_state_no_focus.events ++ [Wm.WmEventKind.window_managed] :=
  (emit_event_gating Wm.sync_state_no_focus
    Wm.WmEventKind.window_managed).2.2.2 rfl rfl
